import Mathlib

/-!
# Book review service: a shallow embedding with proofs

This file embeds the data model and the operations of a book-review web
service (Express + Mongoose route handlers over document collections) in
Lean and proves the stated properties of its rating aggregator,
recommendation filter, follow toggle, helpful-vote toggle, pagination and
reading-stats computations.

Document ids are modelled as `Nat`, ratings and the derived decimal
`averageRating` as `ℚ` (JavaScript numbers; all values involved are exact
in ℚ), and each collection as a `List` of records.  Fallible route
handlers return a status code together with the unchanged or updated
state, mirroring the early-return structure of the source.
-/

namespace BookReviewSystem

/-- A review document, as in `reviewSchema` (`server/models/Review.js`):
`book` and `user` are references (document ids), `rating` the 1–5 star
value.  Fields not touched by the verified operations are omitted. -/
structure Review where
  id : Nat
  book : Nat
  user : Nat
  rating : ℚ
  deriving DecidableEq, Repr

/-- A book document, as in `bookSchema` (`server/models/Books.js`), kept to
the fields the verified operations read or write: `genre`, the derived
`averageRating` (decimal, one fractional digit) and `ratingsCount`. -/
structure Book where
  id : Nat
  genre : String
  averageRating : ℚ
  ratingsCount : Nat
  deriving DecidableEq, Repr

/-- A user document, as in `userSchema` (`server/models/User.js`):
`favoriteGenres` over the genre enumeration, `booksRead` and `wishlist`
as lists of book ids, `followers` and `following` as lists of user ids,
`readingGoal` a number with schema bounds `min: 0, max: 365`. -/
structure User where
  id : Nat
  username : String
  favoriteGenres : List String
  readingGoal : Nat
  booksRead : List Nat
  wishlist : List Nat
  followers : List Nat
  following : List Nat
  deriving DecidableEq, Repr

/-! ## Rating aggregator (`bookSchema.methods.updateAverageRating`) -/

/-- JavaScript `Math.round`: round half toward positive infinity,
`Math.round x = ⌊x + 1/2⌋`. -/
def jsRound (x : ℚ) : ℤ := ⌊x + 1 / 2⌋

/-- Ratings of all reviews whose `book` field equals `bookId` — the
`$match: { book: this._id }` stage of the aggregation pipeline in
`updateAverageRating`, projected to `$rating`. -/
def matchRatings (reviews : List Review) (bookId : Nat) : List ℚ :=
  (reviews.filter (fun r => r.book == bookId)).map Review.rating

/-- The pair (averageRating, ratingsCount) that
`bookSchema.methods.updateAverageRating` writes onto the book: the
`$group` stage yields `$avg: '$rating'` and `$sum: 1` over the matched
reviews; a nonempty result is rounded by `Math.round(avg * 10) / 10`,
and an empty one (`stats.length === 0`) resets both fields to 0. -/
def updateAverageRating (reviews : List Review) (bookId : Nat) : ℚ × Nat :=
  let rs := matchRatings reviews bookId
  if 0 < rs.length then
    (((jsRound (rs.sum / (rs.length : ℚ) * 10) : ℚ)) / 10, rs.length)
  else
    (0, 0)

/-! ## Review mutations and the post hooks (`reviewSchema.post` in
`server/models/Review.js`)

Each public review mutation is followed synchronously by a recompute hook:
`post('save')` after a create, `post('findOneAndUpdate')` after an update,
`post('findOneAndDelete')` after a delete.  The hook loads the parent book
(`Book.findById`) and calls `updateAverageRating` on it, which saves the
two derived fields. -/

/-- Effect of a recompute hook on the books collection: the book whose id
is `bookId` (if present) gets the freshly aggregated pair written onto it;
every other book is untouched. -/
def runRecomputeHook (books : List Book) (reviews : List Review) (bookId : Nat) : List Book :=
  books.map (fun b =>
    if b.id = bookId then
      { b with
          averageRating := (updateAverageRating reviews bookId).1,
          ratingsCount := (updateAverageRating reviews bookId).2 }
    else b)

/-- Review creation (`review.save()` on `POST /api/reviews` and
`POST /api/books/:id/reviews`) followed by the `post('save')` hook. -/
def createReviewOp (books : List Book) (reviews : List Review) (r : Review) :
    List Book × List Review :=
  let reviews2 := reviews ++ [r]
  (runRecomputeHook books reviews2 r.book, reviews2)

/-- Rating update through `Review.findByIdAndUpdate` (`PUT /api/reviews/:id`)
followed by the `post('findOneAndUpdate')` hook; a missing id updates
nothing and fires no hook (the hook guards `if (doc)`). -/
def updateReviewOp (books : List Book) (reviews : List Review) (reviewId : Nat)
    (newRating : ℚ) : List Book × List Review :=
  match reviews.find? (fun r => r.id == reviewId) with
  | none => (books, reviews)
  | some r0 =>
      let reviews2 := reviews.map (fun r =>
        if r.id = reviewId then { r with rating := newRating } else r)
      (runRecomputeHook books reviews2 r0.book, reviews2)

/-- Review deletion through `Review.findByIdAndDelete`
(`DELETE /api/reviews/:id`) followed by the `post('findOneAndDelete')`
hook on the deleted document's book. -/
def deleteReviewOp (books : List Book) (reviews : List Review) (reviewId : Nat) :
    List Book × List Review :=
  match reviews.find? (fun r => r.id == reviewId) with
  | none => (books, reviews)
  | some r0 =>
      let reviews2 := reviews.filter (fun r => r.id != reviewId)
      (runRecomputeHook books reviews2 r0.book, reviews2)

/-- Denormalized-aggregate invariant for one book id: every book record
carrying that id stores exactly the rounded mean and the count of the
current review set of that book (0 and 0 when the set is empty). -/
def aggregateCorrect (books : List Book) (reviews : List Review) (bookId : Nat) : Prop :=
  ∀ b ∈ books, b.id = bookId →
    (matchRatings reviews bookId = [] → b.averageRating = 0 ∧ b.ratingsCount = 0) ∧
    (matchRatings reviews bookId ≠ [] →
      b.averageRating =
        (jsRound ((matchRatings reviews bookId).sum /
            ((matchRatings reviews bookId).length : ℚ) * 10) : ℚ) / 10 ∧
      b.ratingsCount = (matchRatings reviews bookId).length)

/-! ## Recommendation filter (`GET /api/users/:id/recommendations`) -/

/-- JavaScript `[...new Set(l)]`: deduplication keeping the first
occurrence of each element, in insertion order. -/
def dedupFirst (l : List String) : List String :=
  l.foldl (fun acc x => if x ∈ acc then acc else acc ++ [x]) []

/-- Genres of the user's `booksRead`, read through
`populate('booksRead', 'genre')` and `booksRead.map(book => book.genre)`:
each read book id is resolved against the book collection. -/
def readGenres (books : List Book) (user : User) : List String :=
  user.booksRead.filterMap (fun bid => (books.find? (fun b => b.id == bid)).map Book.genre)

/-- Candidate genre set
`[...new Set([...user.favoriteGenres, ...readGenres])]`. -/
def candidateGenres (books : List Book) (user : User) : List String :=
  dedupFirst (user.favoriteGenres ++ readGenres books user)

/-- Selection predicate of the `Book.find` query: genre in the candidate
set (`$in`), not already read (`$nin: user.booksRead`), and the two fixed
policy thresholds `averageRating: { $gte: 4 }`,
`ratingsCount: { $gte: 5 }`. -/
def qualifies (user : User) (genres : List String) (b : Book) : Bool :=
  genres.contains b.genre && !(user.booksRead.contains b.id) &&
    decide ((4 : ℚ) ≤ b.averageRating) && decide (5 ≤ b.ratingsCount)

/-- Order requested by `.sort({ averageRating: -1, ratingsCount: -1 })`:
descending `averageRating`, ties broken by descending `ratingsCount`. -/
def recLe (a b : Book) : Prop :=
  b.averageRating < a.averageRating ∨
    (a.averageRating = b.averageRating ∧ b.ratingsCount ≤ a.ratingsCount)

instance : DecidableRel recLe := fun a b => by
  unfold recLe
  exact inferInstance

instance : IsTrans Book recLe where
  trans a b c hab hbc := by
    rcases hab with h1 | ⟨h1, h1c⟩ <;> rcases hbc with h2 | ⟨h2, h2c⟩
    · exact Or.inl (lt_trans h2 h1)
    · exact Or.inl (h2 ▸ h1)
    · exact Or.inl (h1 ▸ h2)
    · exact Or.inr ⟨h1.trans h2, le_trans h2c h1c⟩

instance : IsTotal Book recLe where
  total a b := by
    rcases lt_trichotomy a.averageRating b.averageRating with h | h | h
    · exact Or.inr (Or.inl h)
    · rcases le_total b.ratingsCount a.ratingsCount with hc | hc
      · exact Or.inl (Or.inr ⟨h, hc⟩)
      · exact Or.inr (Or.inr ⟨h.symm, hc⟩)
    · exact Or.inl (Or.inl h)

/-- The recommendation list: qualifying books, sorted descending by
rating then count, cut off at `.limit(12)`. -/
def recommend (books : List Book) (user : User) : List Book :=
  ((books.filter (qualifies user (candidateGenres books user))).insertionSort recLe).take 12

/-- Demonstration catalog for the recommendation witness. -/
def demoBooks : List Book := [⟨1, "Fiction", 5, 10⟩, ⟨2, "Sci-Fi", 4, 6⟩, ⟨3, "Fiction", 3, 10⟩]

/-- Demonstration user: favorite genre Fiction, has read book 2 (Sci-Fi). -/
def demoUser : User := ⟨100, "reader", ["Fiction"], 12, [2], [], [], []⟩

/-- The book the recommendation witness inspects. -/
def demoTopBook : Book := ⟨1, "Fiction", 5, 10⟩

/-! ## Follow toggle (`POST /api/users/:id/follow`) -/

/-- Mongoose `array.pull(x)` on an id array: removes every occurrence of
`x`, keeping order. -/
def pull (l : List Nat) (x : Nat) : List Nat := l.filter (fun y => y != x)

/-- Core of the follow handler after its guards: the handler checks
`currentUser.following.includes(targetUserId)`; when following it pulls
the two mirror entries, otherwise it pushes both; both documents are then
saved.  The `Bool` is the reported `isFollowing: !isFollowing` flag. -/
def toggleFollow (current target : User) : User × User × Bool :=
  if target.id ∈ current.following then
    ({ current with following := pull current.following target.id },
     { target with followers := pull target.followers current.id },
     false)
  else
    ({ current with following := current.following ++ [target.id] },
     { target with followers := target.followers ++ [current.id] },
     true)

/-! ## Self-follow guard -/

/-- Follow endpoint result: HTTP status, message body, and the user
collection after the call. -/
structure FollowResponse where
  status : Nat
  message : String
  users : List User
  deriving Repr

/-- The `POST /api/users/:id/follow` handler: the self-follow guard
answers 400 before anything is loaded; a missing target answers 404; a
missing authenticated user reaches the catch block (500); otherwise the
toggle runs and both updated documents are saved back. -/
def postFollow (users : List User) (currentUserId targetUserId : Nat) : FollowResponse :=
  if targetUserId = currentUserId then
    ⟨400, "You cannot follow yourself", users⟩
  else
    match users.find? (fun u => u.id == targetUserId),
          users.find? (fun u => u.id == currentUserId) with
    | some target, some current =>
        let r := toggleFollow current target
        ⟨200, if r.2.2 then "User followed" else "User unfollowed",
          users.map (fun u =>
            if u.id = currentUserId then r.1
            else if u.id = targetUserId then r.2.1 else u)⟩
    | none, _ => ⟨404, "User not found", users⟩
    | some _, none => ⟨500, "Server error while following user", users⟩

/-! ## Review creation endpoints (`POST /api/reviews` and
`POST /api/books/:id/reviews`) -/

/-- Outcome of a review-creation endpoint: status, message, and the
affected collections and author document after the call. -/
structure ReviewCreateResult where
  status : Nat
  message : String
  books : List Book
  reviews : List Review
  author : User
  deriving Repr

/-- Post-save update of the author performed by both creation handlers:
push the book onto `user.booksRead` unless already present
(`if (!user.booksRead.includes(bookId))`). -/
def addBookRead (u : User) (bookId : Nat) : User :=
  if bookId ∈ u.booksRead then u
  else { u with booksRead := u.booksRead ++ [bookId] }

/-- The flat `POST /api/reviews` handler: 404 when `body.book` resolves to
no book, 400 when `Review.findOne({book, user})` finds an existing review
by the author, otherwise `review.save()` (which fires the `post('save')`
recompute hook on the parent book) followed by the `booksRead` update. -/
def postApiReviews (books : List Book) (reviews : List Review) (author : User)
    (bookId : Nat) (rating : ℚ) (newId : Nat) : ReviewCreateResult :=
  match books.find? (fun b => b.id == bookId) with
  | none => ⟨404, "Book not found", books, reviews, author⟩
  | some _ =>
      if reviews.any (fun r => r.book == bookId && r.user == author.id) then
        ⟨400, "You have already reviewed this book", books, reviews, author⟩
      else
        let reviews2 := reviews ++ [⟨newId, bookId, author.id, rating⟩]
        ⟨201, "Review created successfully",
          runRecomputeHook books reviews2 bookId, reviews2, addBookRead author bookId⟩

/-- The nested `POST /api/books/:id/reviews` handler: same guards and
effects as the flat route, with the book taken from `req.params.id` and an
additional null check on the author before the `booksRead` update. -/
def postBookIdReviews (books : List Book) (reviews : List Review) (author : User)
    (bookId : Nat) (rating : ℚ) (newId : Nat) : ReviewCreateResult :=
  match books.find? (fun b => b.id == bookId) with
  | none => ⟨404, "Book not found", books, reviews, author⟩
  | some book =>
      if reviews.any (fun r => r.book == book.id && r.user == author.id) then
        ⟨400, "You have already reviewed this book", books, reviews, author⟩
      else
        let reviews2 := reviews ++ [⟨newId, book.id, author.id, rating⟩]
        ⟨201, "Review created successfully",
          runRecomputeHook books reviews2 book.id, reviews2, addBookRead author book.id⟩

/-! ## Helpful-vote toggle (`POST /api/reviews/:id/helpful`) -/

/-- An entry of a review's `helpful` array: a voting user id and the
boolean vote. -/
structure HelpfulVote where
  user : Nat
  isHelpful : Bool
  deriving DecidableEq, Repr

/-- The vote handler core: `helpful.findIndex(vote => vote.user === userId)`;
when an index is found the entry's `isHelpful` is overwritten in place,
otherwise `{user, isHelpful}` is pushed.  JavaScript `findIndex` returning
`-1` corresponds to `findIdx` returning the length. -/
def castHelpfulVote (helpful : List HelpfulVote) (userId : Nat) (vote : Bool) :
    List HelpfulVote :=
  if h : helpful.findIdx (fun v => v.user == userId) < helpful.length then
    helpful.set (helpful.findIdx (fun v => v.user == userId))
      ⟨(helpful.get ⟨helpful.findIdx (fun v => v.user == userId), h⟩).user, vote⟩
  else
    helpful ++ [⟨userId, vote⟩]

/-- The `helpfulnessScore` virtual of `reviewSchema`: percentage of
helpful-true votes among all votes, 0 when no votes exist. -/
def helpfulnessScore (helpful : List HelpfulVote) : ℚ :=
  if helpful.length = 0 then 0
  else ((helpful.filter (fun v => v.isHelpful)).length : ℚ) / (helpful.length : ℚ) * 100

/-! ## Paginated book list (`GET /api/books`) -/

/-- The nested `pagination` object of list endpoints. -/
structure Pagination where
  current : Nat
  pages : Nat
  total : Nat
  limit : Nat
  deriving DecidableEq, Repr

/-- The body of a successful `GET /api/books` response: the page of books
under the key `books`, and the `pagination` object. -/
structure BooksListResponse where
  books : List Book
  pagination : Pagination
  deriving DecidableEq, Repr

/-- Key strings of the JSON object literal handed to `res.json` by the
book-list handler: the page of books is sent under `books`. -/
def booksListResponseKeys : List String := ["books", "pagination"]

/-- Key strings of the nested `pagination` object literal. -/
def paginationKeys : List String := ["current", "pages", "total", "limit"]

/-- JavaScript `Math.ceil` on an exact rational. -/
def jsCeil (x : ℚ) : ℤ := ⌈x⌉

/-- The `GET /api/books` handler after query validation: `page` and
`limit` default to 1 and 12, `skip = (page - 1) * limit`; `flt` stands for
the filter object built from `genre`, `author` and `search`, and `le` for
the sort order built from `sortBy`/`order`; the count is
`countDocuments(filter)` and `pages = Math.ceil(total / limit)`. -/
def getBooks (db : List Book) (flt : Book → Bool) (le : Book → Book → Prop)
    [DecidableRel le] (page limit : Nat) : BooksListResponse :=
  let skip := (page - 1) * limit
  let filtered := db.filter flt
  let total := filtered.length
  { books := ((filtered.insertionSort le).drop skip).take limit
  , pagination :=
      { current := page
      , pages := (jsCeil ((total : ℚ) / (limit : ℚ))).toNat
      , total := total
      , limit := limit } }

/-! ## Reading statistics (`GET /api/users/:id/reading-stats`) -/

/-- Schema bound on `readingGoal` (`min: 0, max: 365`): zero is an
admissible stored value. -/
def readingGoalAdmissible (g : Nat) : Prop := g ≤ 365

/-- The `progressPercentage` line of the reading-stats handler,
`Math.round((user.booksRead.length / user.readingGoal) * 100)`: the code
divides without a zero guard; in JavaScript a zero `readingGoal` makes
the quotient Infinity (or NaN for `0/0`), so `Math.round` of it is not a
finite number.  The embedding makes that partiality explicit: `none`
exactly when the divisor is zero. -/
def progressPercentage (booksReadCount readingGoal : Nat) : Option ℤ :=
  if readingGoal = 0 then none
  else some (jsRound ((booksReadCount : ℚ) / (readingGoal : ℚ) * 100))


/-! ## Theorems for the rating aggregator -/

/-- C1.  `updateAverageRating` sets `ratingsCount` to the number of the
book's reviews, sets `averageRating` to the arithmetic mean of their
ratings rounded to one decimal by round-half-up (`Math.round (avg*10)/10`
with `Math.round x = ⌊x + 1/2⌋`, the unique integer `n` with
`x - 1/2 < n ≤ x + 1/2`), and resets both fields to 0 when the book has
no reviews. -/
theorem C1_updateAverageRating (reviews : List Review) (bookId : Nat) :
    (updateAverageRating reviews bookId).2 = (matchRatings reviews bookId).length ∧
    (matchRatings reviews bookId = [] →
      updateAverageRating reviews bookId = (0, 0)) ∧
    (matchRatings reviews bookId ≠ [] →
      (updateAverageRating reviews bookId).1 =
        (jsRound ((matchRatings reviews bookId).sum /
            ((matchRatings reviews bookId).length : ℚ) * 10) : ℚ) / 10) ∧
    (∀ x : ℚ, x - 1 / 2 < (jsRound x : ℚ) ∧ (jsRound x : ℚ) ≤ x + 1 / 2) := by
  refine ⟨?_, ?_, ?_, ?_⟩
  · by_cases h : 0 < (matchRatings reviews bookId).length <;>
      simp [updateAverageRating, h]
    omega
  · intro h
    simp [updateAverageRating, h]
  · intro h
    have hlen : 0 < (matchRatings reviews bookId).length :=
      List.length_pos.mpr h
    simp [updateAverageRating, hlen]
  · intro x
    constructor
    · have := Int.sub_one_lt_floor (x + 1 / 2)
      have h2 : (⌊x + 1 / 2⌋ : ℚ) > x + 1 / 2 - 1 := by
        exact_mod_cast lt_of_lt_of_le (by linarith) (le_refl (⌊x + 1 / 2⌋ : ℚ))
      simp only [jsRound]
      linarith
    · have := Int.floor_le (x + 1 / 2)
      simp only [jsRound]
      linarith

/-- Witness for C1: a book (id 1) with reviews rated 5, 4 and 3 has a
nonempty match list, and the theorem yields its count and rounded mean. -/
theorem C1_witness :
    (updateAverageRating
        [⟨10, 1, 100, 5⟩, ⟨11, 1, 101, 4⟩, ⟨12, 2, 100, 1⟩, ⟨13, 1, 102, 3⟩] 1).2 =
      (matchRatings
        [⟨10, 1, 100, 5⟩, ⟨11, 1, 101, 4⟩, ⟨12, 2, 100, 1⟩, ⟨13, 1, 102, 3⟩] 1).length ∧
    (updateAverageRating
        [⟨10, 1, 100, 5⟩, ⟨11, 1, 101, 4⟩, ⟨12, 2, 100, 1⟩, ⟨13, 1, 102, 3⟩] 1).1 =
      (jsRound ((matchRatings
          [⟨10, 1, 100, 5⟩, ⟨11, 1, 101, 4⟩, ⟨12, 2, 100, 1⟩, ⟨13, 1, 102, 3⟩] 1).sum /
        ((matchRatings
          [⟨10, 1, 100, 5⟩, ⟨11, 1, 101, 4⟩, ⟨12, 2, 100, 1⟩, ⟨13, 1, 102, 3⟩] 1).length : ℚ) * 10) : ℚ) / 10 :=
  ⟨(C1_updateAverageRating
      [⟨10, 1, 100, 5⟩, ⟨11, 1, 101, 4⟩, ⟨12, 2, 100, 1⟩, ⟨13, 1, 102, 3⟩] 1).1,
   (C1_updateAverageRating
      [⟨10, 1, 100, 5⟩, ⟨11, 1, 101, 4⟩, ⟨12, 2, 100, 1⟩, ⟨13, 1, 102, 3⟩] 1).2.2.1
     (by decide)⟩

/-- Empty-match case of `updateAverageRating`, for reuse. -/
theorem updateAverageRating_of_nil (reviews : List Review) (bookId : Nat)
    (h : matchRatings reviews bookId = []) :
    updateAverageRating reviews bookId = (0, 0) := by
  simp [updateAverageRating, h]

/-- Nonempty-match case of `updateAverageRating`, for reuse. -/
theorem updateAverageRating_of_ne_nil (reviews : List Review) (bookId : Nat)
    (h : matchRatings reviews bookId ≠ []) :
    updateAverageRating reviews bookId =
      ((jsRound ((matchRatings reviews bookId).sum /
          ((matchRatings reviews bookId).length : ℚ) * 10) : ℚ) / 10,
        (matchRatings reviews bookId).length) := by
  have hlen : 0 < (matchRatings reviews bookId).length := List.length_pos.mpr h
  simp [updateAverageRating, hlen]

/-- Scenario from the specification: a book with reviews rated 5, 4, 3 gets
averageRating 4.0 and ratingsCount 3; adding a rating-2 review yields
averageRating 3.5 and ratingsCount 4. -/
theorem updateAverageRating_scenario :
    updateAverageRating [⟨10, 1, 100, 5⟩, ⟨11, 1, 101, 4⟩, ⟨12, 1, 102, 3⟩] 1 = (4, 3) ∧
    updateAverageRating
        [⟨10, 1, 100, 5⟩, ⟨11, 1, 101, 4⟩, ⟨12, 1, 102, 3⟩, ⟨13, 1, 103, 2⟩] 1 = (7 / 2, 4) := by
  constructor <;>
  · simp only [updateAverageRating, matchRatings, List.filter, List.map]
    norm_num [jsRound]

/-- A recompute hook establishes the aggregate invariant for its book id,
whatever the prior field values were. -/
theorem runRecomputeHook_establishes (books : List Book) (reviews : List Review)
    (bookId : Nat) :
    aggregateCorrect (runRecomputeHook books reviews bookId) reviews bookId := by
  intro b hb hid
  simp only [runRecomputeHook, List.mem_map] at hb
  obtain ⟨a, _, rfl⟩ := hb
  by_cases h : a.id = bookId
  · simp only [h, if_true]
    constructor
    · intro hnil
      rw [updateAverageRating_of_nil reviews bookId hnil]
      exact ⟨rfl, rfl⟩
    · intro hne
      rw [updateAverageRating_of_ne_nil reviews bookId hne]
      exact ⟨rfl, rfl⟩
  · rw [if_neg h] at hid
    exact absurd hid h

/-- C2.  After each public review mutation — create, rating update,
delete — the parent book's `averageRating` and `ratingsCount` equal the
aggregate (rounded mean, count) of the then-current review set: the post
hooks re-establish the invariant synchronously. -/
theorem C2_hooks_restore_invariant (books : List Book) (reviews : List Review)
    (r : Review) (reviewId : Nat) (q : ℚ) :
    aggregateCorrect (createReviewOp books reviews r).1
      (createReviewOp books reviews r).2 r.book ∧
    (∀ r0, reviews.find? (fun x => x.id == reviewId) = some r0 →
      aggregateCorrect (updateReviewOp books reviews reviewId q).1
        (updateReviewOp books reviews reviewId q).2 r0.book ∧
      aggregateCorrect (deleteReviewOp books reviews reviewId).1
        (deleteReviewOp books reviews reviewId).2 r0.book) := by
  refine ⟨runRecomputeHook_establishes _ _ _, ?_⟩
  intro r0 h
  constructor
  · simp only [updateReviewOp, h]
    exact runRecomputeHook_establishes _ _ _
  · simp only [deleteReviewOp, h]
    exact runRecomputeHook_establishes _ _ _

/-- Witness for C2: creating a rating-4 review for book 1 in a one-book
database, and deleting it again, both leave book 1 satisfying the
aggregate invariant. -/
theorem C2_witness :
    aggregateCorrect (createReviewOp [⟨1, "Fiction", 0, 0⟩] [] ⟨10, 1, 100, 4⟩).1
      (createReviewOp [⟨1, "Fiction", 0, 0⟩] [] ⟨10, 1, 100, 4⟩).2 1 ∧
    aggregateCorrect (deleteReviewOp [⟨1, "Fiction", 0, 0⟩] [⟨10, 1, 100, 4⟩] 10).1
      (deleteReviewOp [⟨1, "Fiction", 0, 0⟩] [⟨10, 1, 100, 4⟩] 10).2 1 :=
  ⟨(C2_hooks_restore_invariant [⟨1, "Fiction", 0, 0⟩] [] ⟨10, 1, 100, 4⟩ 0 0).1,
   ((C2_hooks_restore_invariant [⟨1, "Fiction", 0, 0⟩] [⟨10, 1, 100, 4⟩]
        ⟨10, 1, 100, 4⟩ 10 0).2 ⟨10, 1, 100, 4⟩ (by decide)).2⟩

/-- Membership in the accumulator-passing form of `dedupFirst`. -/
theorem mem_foldl_dedupInsert (l : List String) (acc : List String) (y : String) :
    (y ∈ l.foldl (fun acc x => if x ∈ acc then acc else acc ++ [x]) acc) ↔
      y ∈ acc ∨ y ∈ l := by
  induction l generalizing acc with
  | nil => simp
  | cons x xs ih =>
      simp only [List.foldl_cons]
      rw [ih]
      by_cases hx : x ∈ acc
      · simp only [if_pos hx, List.mem_cons]
        constructor
        · rintro (h | h)
          · exact Or.inl h
          · exact Or.inr (Or.inr h)
        · rintro (h | h | h)
          · exact Or.inl h
          · exact Or.inl (h ▸ hx)
          · exact Or.inr h
      · simp only [if_neg hx, List.mem_append, List.mem_singleton, List.mem_cons]
        tauto

/-- Deduplication keeps exactly the members of the input list. -/
theorem mem_dedupFirst (l : List String) (y : String) :
    y ∈ dedupFirst l ↔ y ∈ l := by
  simpa [dedupFirst] using mem_foldl_dedupInsert l [] y

/-- C3.  Every recommended book has its genre in the union of the user's
favorite genres and read genres, is not already read, and meets both fixed
thresholds; the list is ordered by descending averageRating then
descending ratingsCount, holds at most 12 books, and is empty when no
book qualifies. -/
theorem C3_recommendations (books : List Book) (user : User) :
    (∀ b ∈ recommend books user,
      (b.genre ∈ user.favoriteGenres ∨ b.genre ∈ readGenres books user) ∧
      b.id ∉ user.booksRead ∧ (4 : ℚ) ≤ b.averageRating ∧ 5 ≤ b.ratingsCount) ∧
    (recommend books user).Pairwise recLe ∧
    (recommend books user).length ≤ 12 ∧
    ((∀ b ∈ books, ¬ qualifies user (candidateGenres books user) b) →
      recommend books user = []) := by
  refine ⟨?_, ?_, ?_, ?_⟩
  · intro b hb
    have hmem : b ∈ (books.filter (qualifies user (candidateGenres books user))).insertionSort recLe :=
      List.mem_of_mem_take hb
    rw [List.mem_insertionSort] at hmem
    have hq := (List.mem_filter.mp hmem).2
    simp only [qualifies, Bool.and_eq_true, List.contains_eq_any_beq] at hq
    simp at hq
    refine ⟨?_, fun hx => hq.1.1.2 _ hx rfl, hq.1.2, hq.2⟩
    have hg := (mem_dedupFirst _ b.genre).mp hq.1.1.1
    simpa [List.mem_append] using hg
  · exact List.Pairwise.sublist (List.take_sublist 12 _)
      (List.sorted_insertionSort recLe _)
  · exact List.length_take_le 12 _
  · intro hnone
    have hfil : books.filter (qualifies user (candidateGenres books user)) = [] := by
      rw [List.filter_eq_nil_iff]
      exact hnone
    simp [recommend, hfil]

/-- Witness for C3: book 1 is recommended to the demonstration user, so
the theorem yields its genre membership, non-read status and thresholds. -/
theorem C3_witness :
    (demoTopBook.genre ∈ demoUser.favoriteGenres ∨
      demoTopBook.genre ∈ readGenres demoBooks demoUser) ∧
    demoTopBook.id ∉ demoUser.booksRead ∧
    (4 : ℚ) ≤ demoTopBook.averageRating ∧ 5 ≤ demoTopBook.ratingsCount :=
  (C3_recommendations demoBooks demoUser).1 demoTopBook (by decide)

/-- C4.  One toggle call removes the target from the follower's
`following` and the follower from the target's `followers` when already
following, and adds both otherwise; the mirrored-inverse-sets invariant is
preserved; and follow followed by unfollow restores both documents
exactly. -/
theorem C4_followToggle (a b : User) (hab : a.id ≠ b.id)
    (hmirror : b.id ∈ a.following ↔ a.id ∈ b.followers) :
    (b.id ∈ a.following →
      (∀ x, x ∈ (toggleFollow a b).1.following ↔ x ∈ a.following ∧ x ≠ b.id) ∧
      (∀ x, x ∈ (toggleFollow a b).2.1.followers ↔ x ∈ b.followers ∧ x ≠ a.id)) ∧
    (b.id ∉ a.following →
      (∀ x, x ∈ (toggleFollow a b).1.following ↔ x ∈ a.following ∨ x = b.id) ∧
      (∀ x, x ∈ (toggleFollow a b).2.1.followers ↔ x ∈ b.followers ∨ x = a.id)) ∧
    (b.id ∈ (toggleFollow a b).1.following ↔ a.id ∈ (toggleFollow a b).2.1.followers) ∧
    (b.id ∉ a.following →
      (toggleFollow (toggleFollow a b).1 (toggleFollow a b).2.1).1 = a ∧
      (toggleFollow (toggleFollow a b).1 (toggleFollow a b).2.1).2.1 = b) := by
  by_cases hmem : b.id ∈ a.following
  · refine ⟨fun _ => ⟨?_, ?_⟩, fun h => absurd hmem h, ?_, fun h => absurd hmem h⟩
    · intro x
      simp [toggleFollow, if_pos hmem, pull, List.mem_filter]
    · intro x
      simp [toggleFollow, if_pos hmem, pull, List.mem_filter]
    · simp [toggleFollow, if_pos hmem, pull, List.mem_filter]
  · refine ⟨fun h => absurd h hmem, fun _ => ⟨?_, ?_⟩, ?_, fun _ => ?_⟩
    · intro x
      simp [toggleFollow, if_neg hmem, List.mem_append]
    · intro x
      simp [toggleFollow, if_neg hmem, List.mem_append]
    · simp [toggleFollow, if_neg hmem]
    · have hbmem : b.id ∈ a.following ++ [b.id] := by simp
      have hpullA : pull (a.following ++ [b.id]) b.id = a.following := by
        simp only [pull, List.filter_append]
        rw [List.filter_eq_self.mpr, show List.filter (fun y => y != b.id) [b.id] = [] by simp,
          List.append_nil]
        intro y hy
        simp only [bne_iff_ne, ne_eq, decide_eq_true_eq]
        exact fun hxy => hmem (hxy ▸ hy)
      have hnotfoll : a.id ∉ b.followers := fun hf => hmem (hmirror.mpr hf)
      have hpullB : pull (b.followers ++ [a.id]) a.id = b.followers := by
        simp only [pull, List.filter_append]
        rw [List.filter_eq_self.mpr, show List.filter (fun y => y != a.id) [a.id] = [] by simp,
          List.append_nil]
        intro y hy
        simp only [bne_iff_ne, ne_eq, decide_eq_true_eq]
        exact fun hxy => hnotfoll (hxy ▸ hy)
      cases a with
      | mk aid aun afg arg abr awl afo afl =>
          cases b with
          | mk bid bun bfg brg bbr bwl bfo bfl =>
              constructor
              · simp only [toggleFollow, if_neg hmem] at hbmem ⊢
                simp only [if_pos hbmem]
                simp_all [User.mk.injEq, hpullA]
              · simp only [toggleFollow, if_neg hmem] at hbmem ⊢
                simp only [if_pos hbmem]
                simp_all [User.mk.injEq, hpullB]

/-- Witness for C4: users 100 and 200, 100 not yet following 200; the
toggle adds the mirror pair and a second toggle restores both records. -/
theorem C4_witness :
    ((200 : Nat) ∈ (toggleFollow ⟨100, "a", [], 12, [], [], [], []⟩
        ⟨200, "b", [], 12, [], [], [], []⟩).1.following ↔
      (200 : Nat) ∈ ([] : List Nat) ∨ (200 : Nat) = 200) ∧
    (toggleFollow
        (toggleFollow ⟨100, "a", [], 12, [], [], [], []⟩ ⟨200, "b", [], 12, [], [], [], []⟩).1
        (toggleFollow ⟨100, "a", [], 12, [], [], [], []⟩ ⟨200, "b", [], 12, [], [], [], []⟩).2.1).1 =
      ⟨100, "a", [], 12, [], [], [], []⟩ :=
  ⟨((C4_followToggle ⟨100, "a", [], 12, [], [], [], []⟩ ⟨200, "b", [], 12, [], [], [], []⟩
      (by decide) (by decide)).2.1 (by decide)).1 200,
   ((C4_followToggle ⟨100, "a", [], 12, [], [], [], []⟩ ⟨200, "b", [], 12, [], [], [], []⟩
      (by decide) (by decide)).2.2.2 (by decide)).1⟩

/-- C8.  A follow request whose target id equals the requester's own id is
rejected with status 400 and the user collection — in particular both
`following` and `followers` arrays of every user — is left unchanged. -/
theorem C8_selfFollowRejected (users : List User) (uid : Nat) :
    (postFollow users uid uid).status = 400 ∧
    (postFollow users uid uid).message = "You cannot follow yourself" ∧
    (postFollow users uid uid).users = users := by
  simp [postFollow]

/-- Any book found by id carries that id, so the nested route's
`book._id` coincides with the requested id. -/
theorem find?_book_id (books : List Book) (bookId : Nat) (b : Book)
    (h : books.find? (fun x => x.id == bookId) = some b) : b.id = bookId := by
  have := List.find?_some h
  simpa using this

/-- C5.  When the author already has a review for an existing book, both
creation endpoints reject the request with status 400 and the conflict
message, and the review collection is returned unchanged. -/
theorem C5_duplicateReviewRejected (books : List Book) (reviews : List Review)
    (author : User) (bookId : Nat) (rating : ℚ) (newId : Nat)
    (hbook : ∃ b ∈ books, b.id = bookId)
    (hdup : ∃ r ∈ reviews, r.book = bookId ∧ r.user = author.id) :
    (postApiReviews books reviews author bookId rating newId).status = 400 ∧
    (postApiReviews books reviews author bookId rating newId).message =
      "You have already reviewed this book" ∧
    (postApiReviews books reviews author bookId rating newId).reviews = reviews ∧
    (postBookIdReviews books reviews author bookId rating newId).status = 400 ∧
    (postBookIdReviews books reviews author bookId rating newId).message =
      "You have already reviewed this book" ∧
    (postBookIdReviews books reviews author bookId rating newId).reviews = reviews := by
  have hfind : (books.find? (fun b => b.id == bookId)).isSome := by
    rw [List.find?_isSome]
    obtain ⟨b, hb, hid⟩ := hbook
    exact ⟨b, hb, by simpa using hid⟩
  obtain ⟨bk, hbk⟩ := Option.isSome_iff_exists.mp hfind
  have hbkid : bk.id = bookId := find?_book_id books bookId bk hbk
  have hany : reviews.any (fun r => r.book == bookId && r.user == author.id) = true := by
    rw [List.any_eq_true]
    obtain ⟨r, hr, hrb, hru⟩ := hdup
    exact ⟨r, hr, by simp [hrb, hru]⟩
  have hany2 : reviews.any (fun r => r.book == bk.id && r.user == author.id) = true := by
    rw [hbkid]
    exact hany
  refine ⟨?_, ?_, ?_, ?_, ?_, ?_⟩ <;>
    simp [postApiReviews, postBookIdReviews, hbk, hany, hany2]

/-- Witness for C5: the demonstration user (id 100) already reviewed book
1, so a second attempt is rejected by both endpoints with the collection
unchanged. -/
theorem C5_witness :
    (postApiReviews demoBooks [⟨10, 1, 100, 4⟩] demoUser 1 5 11).status = 400 ∧
    (postApiReviews demoBooks [⟨10, 1, 100, 4⟩] demoUser 1 5 11).message =
      "You have already reviewed this book" ∧
    (postApiReviews demoBooks [⟨10, 1, 100, 4⟩] demoUser 1 5 11).reviews = [⟨10, 1, 100, 4⟩] ∧
    (postBookIdReviews demoBooks [⟨10, 1, 100, 4⟩] demoUser 1 5 11).status = 400 ∧
    (postBookIdReviews demoBooks [⟨10, 1, 100, 4⟩] demoUser 1 5 11).message =
      "You have already reviewed this book" ∧
    (postBookIdReviews demoBooks [⟨10, 1, 100, 4⟩] demoUser 1 5 11).reviews = [⟨10, 1, 100, 4⟩] :=
  C5_duplicateReviewRejected demoBooks [⟨10, 1, 100, 4⟩] demoUser 1 5 11
    (by decide) (by decide)

/-- C9.  A successful creation on either endpoint updates the author
document exactly by `addBookRead`: the reviewed book is appended to
`booksRead` when absent, `booksRead` is untouched when present, and every
other user field is unchanged. -/
theorem C9_booksReadSideEffect (books : List Book) (reviews : List Review)
    (author : User) (bookId : Nat) (rating : ℚ) (newId : Nat) :
    ((postApiReviews books reviews author bookId rating newId).status = 201 →
      (postApiReviews books reviews author bookId rating newId).author =
        addBookRead author bookId) ∧
    ((postBookIdReviews books reviews author bookId rating newId).status = 201 →
      (postBookIdReviews books reviews author bookId rating newId).author =
        addBookRead author bookId) ∧
    ((addBookRead author bookId).booksRead =
      if bookId ∈ author.booksRead then author.booksRead
      else author.booksRead ++ [bookId]) ∧
    (addBookRead author bookId).id = author.id ∧
    (addBookRead author bookId).username = author.username ∧
    (addBookRead author bookId).favoriteGenres = author.favoriteGenres ∧
    (addBookRead author bookId).readingGoal = author.readingGoal ∧
    (addBookRead author bookId).wishlist = author.wishlist ∧
    (addBookRead author bookId).followers = author.followers ∧
    (addBookRead author bookId).following = author.following := by
  refine ⟨?_, ?_, ?_, ?_, ?_, ?_, ?_, ?_, ?_, ?_⟩
  · intro h
    rcases hbk : books.find? (fun b => b.id == bookId) with _ | bk
    · simp [postApiReviews, hbk] at h
    · by_cases hany : reviews.any (fun r => r.book == bookId && r.user == author.id) = true
      · simp [postApiReviews, hbk, hany] at h
      · simp [postApiReviews, hbk, hany]
  · intro h
    rcases hbk : books.find? (fun b => b.id == bookId) with _ | bk
    · simp [postBookIdReviews, hbk] at h
    · have hbkid : bk.id = bookId := find?_book_id books bookId bk hbk
      by_cases hany : reviews.any (fun r => r.book == bk.id && r.user == author.id) = true
      · simp [postBookIdReviews, hbk, hany] at h
      · have hnodup : ¬ ∃ x ∈ reviews, x.book = bookId ∧ x.user = author.id := by
          rw [hbkid] at hany
          rintro ⟨x, hx, hb, hu⟩
          exact hany (List.any_eq_true.mpr ⟨x, hx, by simp [hb, hu]⟩)
        simp [postBookIdReviews, hbk, hbkid, hnodup]
  all_goals
    simp only [addBookRead]
    split <;> simp

/-- Witness for C9: creating a review for book 1 succeeds for the
demonstration user on both endpoints and appends book 1 to `booksRead`. -/
theorem C9_witness :
    (postApiReviews demoBooks [] demoUser 1 4 10).author = addBookRead demoUser 1 ∧
    (postBookIdReviews demoBooks [] demoUser 1 4 10).author = addBookRead demoUser 1 :=
  ⟨(C9_booksReadSideEffect demoBooks [] demoUser 1 4 10).1 (by decide),
   (C9_booksReadSideEffect demoBooks [] demoUser 1 4 10).2.1 (by decide)⟩

/-- Setting an index of a list of ids to the value already there changes
nothing. -/
theorem set_get_self_nat (l : List Nat) (i : Nat) (h : i < l.length) :
    l.set i (l.get ⟨i, h⟩) = l := by
  apply List.ext_getElem (by simp)
  intro n h1 h2
  rw [List.getElem_set]
  split
  · next heq => subst heq; simp
  · rfl

/-- Overwriting the final slot of a one-element extension. -/
theorem set_concat_length (l : List HelpfulVote) (x y : HelpfulVote) :
    (l ++ [x]).set l.length y = l ++ [y] := by
  induction l with
  | nil => rfl
  | cons a as ih => simp [ih]

/-- C6.  Voting when the user already has an entry overwrites it in place:
length and per-entry users are unchanged; the no-two-entries-per-user
invariant is preserved by every vote; and re-casting the same vote is
idempotent — in particular the total vote count is unchanged. -/
theorem C6_helpfulVote (helpful : List HelpfulVote) (userId : Nat) (vote : Bool) :
    ((∃ v ∈ helpful, v.user = userId) →
      (castHelpfulVote helpful userId vote).length = helpful.length ∧
      (castHelpfulVote helpful userId vote).map HelpfulVote.user =
        helpful.map HelpfulVote.user) ∧
    ((helpful.map HelpfulVote.user).Nodup →
      ((castHelpfulVote helpful userId vote).map HelpfulVote.user).Nodup) ∧
    castHelpfulVote (castHelpfulVote helpful userId vote) userId vote =
      castHelpfulVote helpful userId vote ∧
    (castHelpfulVote (castHelpfulVote helpful userId vote) userId vote).length =
      (castHelpfulVote helpful userId vote).length := by
  have hmap : ∀ h : helpful.findIdx (fun v => v.user == userId) < helpful.length,
      (castHelpfulVote helpful userId vote).map HelpfulVote.user =
        helpful.map HelpfulVote.user := by
    intro h
    simp only [castHelpfulVote, dif_pos h, List.map_set]
    have hval : (helpful.get ⟨helpful.findIdx (fun v => v.user == userId), h⟩).user =
        (helpful.map HelpfulVote.user).get
          ⟨helpful.findIdx (fun v => v.user == userId), by simpa using h⟩ := by
      simp
    rw [hval]
    exact set_get_self_nat _ _ _
  have hidem : castHelpfulVote (castHelpfulVote helpful userId vote) userId vote =
      castHelpfulVote helpful userId vote := by
    by_cases h : helpful.findIdx (fun v => v.user == userId) < helpful.length
    · have hres : castHelpfulVote helpful userId vote =
          helpful.set (helpful.findIdx (fun v => v.user == userId))
            ⟨(helpful.get ⟨helpful.findIdx (fun v => v.user == userId), h⟩).user, vote⟩ := by
        simp only [castHelpfulVote, dif_pos h]
      have hpi : ((helpful.get ⟨helpful.findIdx (fun v => v.user == userId), h⟩).user == userId) = true := by
        have := @List.findIdx_getElem _ (fun v => v.user == userId) helpful h
        simpa using this
      have hlen2 : (castHelpfulVote helpful userId vote).length = helpful.length := by
        rw [hres]
        simp
      have hfind2 : (castHelpfulVote helpful userId vote).findIdx
          (fun v => v.user == userId) = helpful.findIdx (fun v => v.user == userId) := by
        rw [hres]
        apply (List.findIdx_eq (by simpa using h)).mpr
        constructor
        · simpa using hpi
        · intro j hj
          rw [List.getElem_set_ne (Nat.ne_of_gt hj)]
          exact List.not_of_lt_findIdx hj
      have hcond2 : (castHelpfulVote helpful userId vote).findIdx
          (fun v => v.user == userId) < (castHelpfulVote helpful userId vote).length := by
        rw [hfind2, hlen2]
        exact h
      rw [castHelpfulVote, dif_pos hcond2]
      have hget2 : ((castHelpfulVote helpful userId vote).get
            ⟨(castHelpfulVote helpful userId vote).findIdx (fun v => v.user == userId), hcond2⟩).user =
          (helpful.get ⟨helpful.findIdx (fun v => v.user == userId), h⟩).user := by
        simp only [List.get_eq_getElem, hfind2]
        simp only [hres]
        rw [List.getElem_set_self]
        simp
      conv_lhs =>
        rw [hget2, hfind2, hres]
      rw [List.set_set, ← hres]
    · have hlen : helpful.findIdx (fun v => v.user == userId) = helpful.length :=
        Nat.le_antisymm (List.findIdx_le_length _) (Nat.le_of_not_lt h)
      have happend : castHelpfulVote helpful userId vote = helpful ++ [⟨userId, vote⟩] := by
        simp only [castHelpfulVote, dif_neg h]
      have hfindap : (helpful ++ [(⟨userId, vote⟩ : HelpfulVote)]).findIdx
          (fun v => v.user == userId) = helpful.length := by
        rw [List.findIdx_append, if_neg (by rw [hlen]; exact lt_irrefl _)]
        simp [List.findIdx_cons]
      have hcond2 : (castHelpfulVote helpful userId vote).findIdx
          (fun v => v.user == userId) < (castHelpfulVote helpful userId vote).length := by
        rw [happend, hfindap]
        simp
      rw [castHelpfulVote, dif_pos hcond2]
      have hget2 : ((castHelpfulVote helpful userId vote).get
            ⟨(castHelpfulVote helpful userId vote).findIdx (fun v => v.user == userId), hcond2⟩) =
          ⟨userId, vote⟩ := by
        simp only [happend, hfindap, List.get_eq_getElem]
        exact List.getElem_concat_length _ _ _ rfl _
      rw [hget2]
      conv_lhs => rw [happend, hfindap]
      rw [set_concat_length, happend]
  refine ⟨?_, ?_, hidem, congrArg List.length hidem⟩
  · rintro ⟨v, hv, he⟩
    have h : helpful.findIdx (fun v => v.user == userId) < helpful.length :=
      List.findIdx_lt_length_of_exists ⟨v, hv, by simp [he]⟩
    constructor
    · have hlenmap := congrArg List.length (hmap h)
      simpa using hlenmap
    · exact hmap h
  · intro hnd
    by_cases h : helpful.findIdx (fun v => v.user == userId) < helpful.length
    · rw [hmap h]
      exact hnd
    · have hlen : helpful.findIdx (fun v => v.user == userId) = helpful.length :=
        Nat.le_antisymm (List.findIdx_le_length _) (Nat.le_of_not_lt h)
      have hall : ∀ v ∈ helpful, v.user ≠ userId := by
        intro v hv
        have := List.findIdx_eq_length.mp hlen v hv
        simpa using this
      simp only [castHelpfulVote, dif_neg h, List.map_append, List.map_cons, List.map_nil]
      rw [List.nodup_append]
      refine ⟨hnd, List.nodup_singleton _, ?_⟩
      intro a ha hb
      simp only [List.mem_singleton] at hb
      obtain ⟨v, hv, rfl⟩ := List.mem_map.mp ha
      exact hall v hv hb

/-- Witness for C6: user 7 already voted on the review, so re-casting the
same vote keeps the length and the user entries; a duplicate-free vote
list stays duplicate-free. -/
theorem C6_witness :
    ((castHelpfulVote [⟨7, true⟩, ⟨8, false⟩] 7 true).length =
        ([⟨7, true⟩, ⟨8, false⟩] : List HelpfulVote).length ∧
      (castHelpfulVote [⟨7, true⟩, ⟨8, false⟩] 7 true).map HelpfulVote.user =
        ([⟨7, true⟩, ⟨8, false⟩] : List HelpfulVote).map HelpfulVote.user) ∧
    ((castHelpfulVote [⟨7, true⟩, ⟨8, false⟩] 7 true).map HelpfulVote.user).Nodup :=
  ⟨(C6_helpfulVote [⟨7, true⟩, ⟨8, false⟩] 7 true).1 (by decide),
   (C6_helpfulVote [⟨7, true⟩, ⟨8, false⟩] 7 true).2.1 (by decide)⟩

/-- Ceiling division of naturals through the rational field: for a
positive divisor, `Math.ceil (t / l)` is `(t + l - 1) / l`. -/
theorem jsCeil_natDiv (t l : Nat) (hl : 1 ≤ l) :
    (jsCeil ((t : ℚ) / (l : ℚ))).toNat = (t + l - 1) / l := by
  have hl0 : (0 : ℚ) < (l : ℚ) := by exact_mod_cast hl
  obtain ⟨d, hd⟩ : ∃ d, (t + l - 1) / l = d := ⟨_, rfl⟩
  have hmod := Nat.div_add_mod (t + l - 1) l
  have hmlt : (t + l - 1) % l < l := Nat.mod_lt _ (by omega)
  rw [hd] at hmod ⊢
  have h1 : t ≤ l * d := by omega
  have h3 : l * d < t + l := by omega
  have h1q : (t : ℚ) ≤ (l : ℚ) * (d : ℚ) := by exact_mod_cast h1
  have h3q : (l : ℚ) * (d : ℚ) < (t : ℚ) + (l : ℚ) := by exact_mod_cast h3
  have hceil : jsCeil ((t : ℚ) / (l : ℚ)) = (d : ℤ) := by
    rw [jsCeil, Int.ceil_eq_iff]
    constructor
    · push_cast
      rw [lt_div_iff₀ hl0, sub_mul, one_mul]
      linarith
    · push_cast
      rw [div_le_iff₀ hl0]
      linarith
  rw [hceil, Int.toNat_natCast]

/-- C7 counterexample: the top-level keys of the book-list response are
`books` and `pagination`; there is no `items` key, so the claimed
`{items, pagination}` shape does not match the code. -/
theorem C7_counterexample :
    "items" ∉ booksListResponseKeys ∧
    booksListResponseKeys = ["books", "pagination"] ∧
    paginationKeys = ["current", "pages", "total", "limit"] := by
  refine ⟨?_, rfl, rfl⟩
  decide

/-- C7 (amended).  A successful book-list response is
`{books, pagination: {current, pages, total, limit}}` where `books` is
the requested page of the filtered, sorted catalog and `pagination.pages`
equals `ceil(total / limit)` (as naturals, `(total + limit - 1) / limit`
for the validated positive limit). -/
theorem C7_bookListPagination (db : List Book) (flt : Book → Bool)
    (le : Book → Book → Prop) [DecidableRel le] (page limit : Nat) (hl : 1 ≤ limit) :
    booksListResponseKeys = ["books", "pagination"] ∧
    paginationKeys = ["current", "pages", "total", "limit"] ∧
    (getBooks db flt le page limit).books =
      (((db.filter flt).insertionSort le).drop ((page - 1) * limit)).take limit ∧
    (getBooks db flt le page limit).pagination.current = page ∧
    (getBooks db flt le page limit).pagination.total = (db.filter flt).length ∧
    (getBooks db flt le page limit).pagination.limit = limit ∧
    (getBooks db flt le page limit).pagination.pages =
      ((db.filter flt).length + limit - 1) / limit ∧
    (getBooks db flt le page limit).books.length ≤ limit := by
  refine ⟨rfl, rfl, rfl, rfl, rfl, rfl, ?_, List.length_take_le _ _⟩
  exact jsCeil_natDiv _ _ hl

/-- Witness for C7: a Fiction-filtered request over the demonstration
catalog at page 1 with the default limit 12 gets `pages` by ceiling
division and echoes the page number. -/
theorem C7_witness :
    (getBooks demoBooks (fun b => b.genre == "Fiction") recLe 1 12).pagination.pages =
      (((demoBooks.filter (fun b => b.genre == "Fiction")).length + 12 - 1) / 12) ∧
    (getBooks demoBooks (fun b => b.genre == "Fiction") recLe 1 12).pagination.current = 1 :=
  ⟨(C7_bookListPagination demoBooks (fun b => b.genre == "Fiction") recLe 1 12
      (by decide)).2.2.2.2.2.2.1,
   (C7_bookListPagination demoBooks (fun b => b.genre == "Fiction") recLe 1 12
      (by decide)).2.2.2.1⟩

/-- C10.  The reading-stats division is not total over schema-admissible
user states: `readingGoal = 0` passes the schema yet yields no finite
`progressPercentage` (for instance with 5 books read), while every
positive goal yields a finite value. -/
theorem C10_progressDivisionNotTotal :
    (readingGoalAdmissible 0 ∧ progressPercentage 5 0 = none) ∧
    (∀ booksReadCount g : Nat, 0 < g →
      (progressPercentage booksReadCount g).isSome) := by
  constructor
  · exact ⟨by norm_num [readingGoalAdmissible], by simp [progressPercentage]⟩
  · intro n g hg
    simp [progressPercentage, Nat.pos_iff_ne_zero.mp hg]

/-- Witness for C10: a positive reading goal (the schema default 12) does
produce a finite percentage. -/
theorem C10_witness : (progressPercentage 5 12).isSome :=
  C10_progressDivisionNotTotal.2 5 12 (by decide)

end BookReviewSystem
